import Mathlib

/-!
Verification of `edward_utils.py`: a shallow embedding of the
`SpectralNormalizationConv2D` wrapper and of the
`LaplaceRandomFeatureCovariance` layer, with theorems settling the
specification's claims about them.

Modelling conventions:
* floating-point tensors are modelled over `ℝ` (exact real arithmetic);
* a tensor is flattened to a vector `Fin n → ℝ`; a 2-D tensor is a `Matrix`;
* for a fixed kernel `w`, `tf.nn.conv2d(·, w)` is a linear operator on the
  flattened input activations; we model it by the matrix `A` of that linear
  map, and `tf.nn.conv2d_transpose(·, w)` — which TensorFlow defines as the
  adjoint (input gradient) of `conv2d` — by `Aᵀ`.  Rescaling the kernel `w`
  by a scalar rescales the induced operator by the same scalar, since the
  convolution is also linear in `w`;
* `tf.Variable.assign` becomes explicit state passing on a state structure;
* a Python `raise` becomes `Except.error`.
-/

set_option maxHeartbeats 1000000

namespace EdwardUtils

open Matrix

/-- A flattened real tensor of size `n`. -/
abbrev Vec (n : ℕ) : Type := Fin n → ℝ

/-- The global L2 norm of a flattened tensor. -/
noncomputable def l2norm {n : ℕ} (x : Vec n) : ℝ := Real.sqrt (∑ i, x i ^ 2)

/-- `tf.nn.l2_normalize`: divide by the global L2 norm of the flattened
tensor.  The float code divides by `sqrt(max(sum(x²), 1e-12))`; idealised
over `ℝ` the epsilon is 0, with the TF convention that the zero tensor
normalises to itself (here `(0 : ℝ)⁻¹ = 0`). -/
noncomputable def l2_normalize {n : ℕ} (x : Vec n) : Vec n := (l2norm x)⁻¹ • x

/-- Whether a Python call raised an exception. -/
def isError {α : Type} : Except String α → Bool
  | Except.error _ => true
  | Except.ok _ => false

namespace SpectralNormalizationConv2D

/-- The attributes of the wrapped Keras layer that `__init__` observes or
mutates: its `_name` string and whether it is a `tf.keras.layers.Conv2D`
instance. -/
structure PyLayer where
  name : String
  isConv2D : Bool

/-- The configuration stored by a successful `__init__`. -/
structure SNCfg where
  iteration : ℕ
  norm_multiplier : ℝ
  do_power_iteration : Bool
  legacy_mode : Bool

/-- `__init__` (`edward_utils.py` lines 41–81): stores the configuration,
appends `'_spec_norm'` to the wrapped layer's `_name` (line 75), and only
then checks `isinstance(layer, tf.keras.layers.Conv2D)`, raising
`ValueError` otherwise (lines 77–80).  The — possibly mutated — layer
object is returned alongside the result. -/
def init (layer : PyLayer) (iteration : ℕ) (norm_multiplier : ℝ)
    (training : Bool) (legacy_mode : Bool) : PyLayer × Except String SNCfg :=
  let layer₁ : PyLayer := { layer with name := layer.name ++ "_spec_norm" }
  if layer₁.isConv2D then
    (layer₁, Except.ok ⟨iteration, norm_multiplier, training, legacy_mode⟩)
  else
    (layer₁, Except.error "layer must be a tf.keras.layer.Conv2D instance.")

/-- The mutable state of a built `SpectralNormalizationConv2D` wrapper: the
wrapped layer's kernel variable (represented by the matrix of the linear
operator the kernel induces via `tf.nn.conv2d`, see the file header) and
the persisted singular-vector estimates `u` and `v` (lines 115–129). -/
structure SNState (nO nI : ℕ) where
  kernel : Matrix (Fin nO) (Fin nI) ℝ
  u : Vec nO
  v : Vec nI

/-- `build` line 89: `self.w = self.layer.kernel`.  `self.w` is a Python
alias of the very same `tf.Variable`, not a snapshot of its value, so a
read of `self.w` always yields the kernel variable's current value. -/
def w {nO nI : ℕ} (s : SNState nO nI) : Matrix (Fin nO) (Fin nI) ℝ := s.kernel

/-- One iteration of the power-iteration loop in `update_weights`
(lines 153–167): `v ← l2_normalize(conv2d_transpose(u, w))` then
`u ← l2_normalize(conv2d(v, w))`, with `A` the matrix of `conv2d(·, w)`. -/
noncomputable def powerStep {nO nI : ℕ} (A : Matrix (Fin nO) (Fin nI) ℝ)
    (uv : Vec nO × Vec nI) : Vec nO × Vec nI :=
  let v_new := Matrix.mulVec Aᵀ uv.1
  let v_hat := l2_normalize v_new
  let u_new := Matrix.mulVec A v_hat
  let u_hat := l2_normalize u_new
  (u_hat, v_hat)

/-- The `(u_hat, v_hat)` pair after the loop of `update_weights`
(lines 152–167): `iteration` repetitions of `powerStep` when
`do_power_iteration` (i.e. `training`) is set, else the stored pair
unchanged. -/
noncomputable def uvAfterIteration {nO nI : ℕ} (A : Matrix (Fin nO) (Fin nI) ℝ)
    (iteration : ℕ) (do_power_iteration : Bool) (u : Vec nO) (v : Vec nI) :
    Vec nO × Vec nI :=
  if do_power_iteration then (powerStep A)^[iteration] (u, v) else (u, v)

/-- `sigma` (lines 169–173): the `1 × 1` matrix product of the flattened
`conv2d(v_hat, w)` with the flattened `u_hat`, reshaped to a scalar — the
dot product of the two flattened tensors. -/
noncomputable def sigmaEstimate {nO nI : ℕ} (A : Matrix (Fin nO) (Fin nI) ℝ)
    (uv : Vec nO × Vec nI) : ℝ :=
  ∑ i, Matrix.mulVec A uv.2 i * uv.1 i

/-- `update_weights` (lines 146–183): run the power-iteration loop (when
enabled), compute `sigma`, and compute the kernel value assigned to the
wrapped layer by
`tf.cond((norm_multiplier / sigma) < 1, (norm_multiplier / sigma) * w, w)`
(lines 178–181).  Returns the new `(u, v)` pair, `sigma`, and that
assigned kernel `w_norm`. -/
noncomputable def update_weights {nO nI : ℕ} (A : Matrix (Fin nO) (Fin nI) ℝ)
    (norm_multiplier : ℝ) (iteration : ℕ) (do_power_iteration : Bool)
    (u : Vec nO) (v : Vec nI) :
    (Vec nO × Vec nI) × ℝ × Matrix (Fin nO) (Fin nI) ℝ :=
  (uvAfterIteration A iteration do_power_iteration u v,
   sigmaEstimate A (uvAfterIteration A iteration do_power_iteration u v),
   if norm_multiplier / sigmaEstimate A (uvAfterIteration A iteration do_power_iteration u v) < 1 then
     (norm_multiplier / sigmaEstimate A (uvAfterIteration A iteration do_power_iteration u v)) • A
   else A)

/-- `restore_weights` (lines 185–187): `self.layer.kernel.assign(self.w)`,
where `self.w` is the alias established in `build` (see `w` above): the
assignment reads the kernel variable's current value and writes it back. -/
def restore_weights {nO nI : ℕ} (s : SNState nO nI) : SNState nO nI :=
  { s with kernel := w s }

/-- `call` (lines 133–144): run `update_weights` (whose update ops assign
`u`, `v` and assign `w_norm` to the kernel variable), apply the wrapped
convolution with the kernel variable's current value, then run
`restore_weights`.  Returns the post-call state and the layer output. -/
noncomputable def call {nO nI : ℕ} (norm_multiplier : ℝ) (iteration : ℕ)
    (do_power_iteration : Bool) (s : SNState nO nI) (inputs : Vec nI) :
    SNState nO nI × Vec nO :=
  let r := update_weights (w s) norm_multiplier iteration do_power_iteration s.u s.v
  let s₁ : SNState nO nI := { kernel := r.2.2, u := r.1.1, v := r.1.2 }
  let output := Matrix.mulVec s₁.kernel inputs
  let s₂ := restore_weights s₁
  (s₂, output)

end SpectralNormalizationConv2D

/-- `_SUPPORTED_LIKELIHOOD` (line 266). -/
def _SUPPORTED_LIKELIHOOD : List String := ["binary_logistic", "poisson", "gaussian"]

namespace LaplaceRandomFeatureCovariance

/-- The three supported likelihoods. -/
inductive Likelihood where
  | binary_logistic
  | poisson
  | gaussian
  deriving DecidableEq

/-- Parsing of a likelihood identifier string into `Likelihood`. -/
def parseLikelihood (s : String) : Option Likelihood :=
  if s = "binary_logistic" then some Likelihood.binary_logistic
  else if s = "poisson" then some Likelihood.poisson
  else if s = "gaussian" then some Likelihood.gaussian
  else none

/-- The configuration stored by a successful `__init__`. -/
structure LCfg where
  momentum : ℝ
  ridge_penalty : ℝ
  likelihood : Likelihood

/-- `__init__` (lines 542–561): rejects a likelihood identifier outside
`_SUPPORTED_LIKELIHOOD` with a `ValueError` (lines 551–554), otherwise
stores the configuration. -/
def init (momentum ridge_penalty : ℝ) (likelihood : String) : Except String LCfg :=
  match parseLikelihood likelihood with
  | some lik => Except.ok ⟨momentum, ridge_penalty, lik⟩
  | none => Except.error "likelihood must be one of the supported likelihoods."

/-- The persistent variables created by `build` (lines 567–616):
`gp_precision_matrix`, `gp_covariance_matrix`, and the boolean
`update_gp_covariance` flag. -/
structure LState (d : ℕ) where
  precision_matrix : Matrix (Fin d) (Fin d) ℝ
  covariance_matrix : Matrix (Fin d) (Fin d) ℝ
  if_update_covariance : Bool

/-- `tf.sigmoid`. -/
noncomputable def sigmoid (x : ℝ) : ℝ := 1 / (1 + Real.exp (-x))

/-- The per-example multiplier (lines 634–640): `prob * (1 - prob)` with
`prob = sigmoid(logit)` for `binary_logistic`, `exp(logit)` for `poisson`,
and the scalar `1.` otherwise (`gaussian`). -/
noncomputable def probMultiplier (lik : Likelihood) (logit : ℝ) : ℝ :=
  match lik with
  | Likelihood.binary_logistic => sigmoid logit * (1 - sigmoid logit)
  | Likelihood.poisson => Real.exp logit
  | Likelihood.gaussian => 1

/-- Extracts the single logit column.  The body of
`update_feature_precision_matrix` reads `logits` only when the likelihood
is non-Gaussian, in which case the validation (lines 620–628) has already
ensured that `logits` is present with last dimension exactly 1, so reading
column 0 is exact; the default value `0` is never reached on the paths
whose multiplier depends on it. -/
def logitsColumn {b L : ℕ} (logits : Option (Matrix (Fin b) (Fin L) ℝ)) : Fin b → ℝ :=
  fun i =>
    match logits with
    | some l => if h : 0 < L then l i ⟨0, h⟩ else 0
    | none => 0

/-- `gp_feature_adjusted = tf.sqrt(prob_multiplier) * gp_feature`
(line 642): each feature row is scaled by the square root of its example's
multiplier (the `(b, 1)`-shaped multiplier broadcasts across columns). -/
noncomputable def gpFeatureAdjusted {b d : ℕ} (lik : Likelihood)
    (gp_feature : Matrix (Fin b) (Fin d) ℝ) (logit : Fin b → ℝ) :
    Matrix (Fin b) (Fin d) ℝ :=
  fun i j => Real.sqrt (probMultiplier lik (logit i)) * gp_feature i j

/-- Lines 630–659 of `update_feature_precision_matrix`, after validation:
`precision_matrix_minibatch = adjustedᵀ * adjusted`, then either the
moving-average update (dividing the minibatch matrix by `batch_size`) when
`momentum > 0`, or the exact accumulation `P + minibatch` otherwise. -/
noncomputable def precisionUpdateBody {b d : ℕ} (cfg : LCfg)
    (precision_matrix : Matrix (Fin d) (Fin d) ℝ)
    (gp_feature : Matrix (Fin b) (Fin d) ℝ) (logit : Fin b → ℝ) :
    Matrix (Fin d) (Fin d) ℝ :=
  let batch_size : ℝ := (b : ℝ)
  let adjusted := gpFeatureAdjusted cfg.likelihood gp_feature logit
  let precision_matrix_minibatch := adjustedᵀ * adjusted
  if cfg.momentum > 0 then
    cfg.momentum • precision_matrix +
      (1 - cfg.momentum) • (batch_size⁻¹ • precision_matrix_minibatch)
  else
    precision_matrix + precision_matrix_minibatch

/-- `update_feature_precision_matrix` (lines 618–659): for a non-Gaussian
likelihood, raise if `logits` is `None` (lines 621–623) or if its last
dimension is not 1 (lines 625–628); otherwise return the updated precision
matrix. -/
noncomputable def update_feature_precision_matrix {b d L : ℕ} (cfg : LCfg)
    (precision_matrix : Matrix (Fin d) (Fin d) ℝ)
    (gp_feature : Matrix (Fin b) (Fin d) ℝ)
    (logits : Option (Matrix (Fin b) (Fin L) ℝ)) :
    Except String (Matrix (Fin d) (Fin d) ℝ) :=
  if cfg.likelihood ≠ Likelihood.gaussian then
    if logits.isNone then
      Except.error "logits cannot be None for a non-gaussian likelihood"
    else if L ≠ 1 then
      Except.error "this likelihood only supports univariate logits"
    else
      Except.ok (precisionUpdateBody cfg precision_matrix gp_feature (logitsColumn logits))
  else
    Except.ok (precisionUpdateBody cfg precision_matrix gp_feature (logitsColumn logits))

/-- `update_feature_covariance_matrix` (lines 671–695): invert the
ridge-regularised precision matrix (`tf.linalg.inv(ridge_penalty * eye +
precision)`) when `if_update_covariance` is set, otherwise return the
cached covariance unchanged.  `tf.linalg.inv` is modelled by the matrix
inverse; the float32 casts are identities over `ℝ`. -/
noncomputable def update_feature_covariance_matrix {d : ℕ} (cfg : LCfg)
    (s : LState d) : Matrix (Fin d) (Fin d) ℝ :=
  if s.if_update_covariance then
    (cfg.ridge_penalty • (1 : Matrix (Fin d) (Fin d) ℝ) + s.precision_matrix)⁻¹
  else
    s.covariance_matrix

/-- `compute_predictive_covariance` (lines 697–721):
`cov_feature_product = matmul(covariance_matrix, gp_feature, transpose_b) *
ridge_penalty`, then `matmul(gp_feature, cov_feature_product)`. -/
noncomputable def compute_predictive_covariance {b d : ℕ} (cfg : LCfg)
    (s : LState d) (gp_feature : Matrix (Fin b) (Fin d) ℝ) :
    Matrix (Fin b) (Fin b) ℝ :=
  let cov_feature_product := cfg.ridge_penalty • (s.covariance_matrix * gp_featureᵀ)
  gp_feature * cov_feature_product

/-- `compute_output_shape` (lines 563–565): declares an output shape of
`(gp_feature_dim, gp_feature_dim)` where `gp_feature_dim` is the input
shape's last entry. -/
def compute_output_shape (input_shape : List ℕ) : List ℕ :=
  let gp_feature_dim := input_shape.getLastD 0
  [gp_feature_dim, gp_feature_dim]

/-- `call` (lines 732–785).  Returns the updated persistent state, the
returned tensor, and an instrumentation bit recording whether the
`tf.linalg.inv` branch of the `tf.cond` inside
`update_feature_covariance_matrix` executed (the call-count probe for the
dirty-flag discipline; in training mode no inversion can occur, so the bit
is `false` there). -/
noncomputable def call {b d L : ℕ} (cfg : LCfg) (s : LState d)
    (inputs : Matrix (Fin b) (Fin d) ℝ)
    (logits : Option (Matrix (Fin b) (Fin L) ℝ)) (training : Bool) :
    Except String (LState d × Matrix (Fin b) (Fin b) ℝ × Bool) :=
  if training then
    (update_feature_precision_matrix cfg s.precision_matrix inputs logits).map
      fun precision_matrix_updated =>
        ({ precision_matrix := precision_matrix_updated,
           covariance_matrix := s.covariance_matrix,
           if_update_covariance := true },
         (1 : Matrix (Fin b) (Fin b) ℝ), false)
  else
    let covariance_matrix_updated := update_feature_covariance_matrix cfg s
    let s₁ : LState d :=
      { precision_matrix := s.precision_matrix,
        covariance_matrix := covariance_matrix_updated,
        if_update_covariance := false }
    Except.ok (s₁, compute_predictive_covariance cfg s₁ inputs, s.if_update_covariance)

end LaplaceRandomFeatureCovariance

/-- The shape of a 2-D tensor of our model, read off its type. -/
def matrixShape {a c : ℕ} (_M : Matrix (Fin a) (Fin c) ℝ) : List ℕ := [a, c]

namespace LaplaceRandomFeatureCovariance

/-! Concrete configurations and states used by the closed-form theorems
below about the call sequence of the covariance layer. -/

/-- A concrete Gaussian-likelihood configuration (momentum `1/2`,
ridge penalty `1`). -/
noncomputable def cfgA : LCfg := ⟨1 / 2, 1, Likelihood.gaussian⟩

/-- A concrete Gaussian-likelihood configuration with non-positive
momentum `-1` (exact-accumulation mode) and ridge penalty `1`. -/
noncomputable def cfgB : LCfg := ⟨-1, 1, Likelihood.gaussian⟩

/-- A concrete Gaussian-likelihood configuration (momentum `1`,
ridge penalty `1`). -/
noncomputable def cfgC : LCfg := ⟨1, 1, Likelihood.gaussian⟩

/-- A concrete start state: zero precision, identity covariance, flag
cleared.  Note the identity equals `(cfgA.ridge_penalty • 1 + 0)⁻¹`, i.e.
this state's covariance is fresh for its precision matrix. -/
noncomputable def stateFresh : LState 1 := ⟨0, 1, false⟩

/-- The state after a training call of `cfgA` from `stateFresh` on a zero
feature batch. -/
noncomputable def stateA1 : LState 1 :=
  ⟨precisionUpdateBody cfgA stateFresh.precision_matrix (0 : Matrix (Fin 1) (Fin 1) ℝ)
      (logitsColumn (none : Option (Matrix (Fin 1) (Fin 1) ℝ))),
   stateFresh.covariance_matrix, true⟩

/-- The state after a subsequent inference call of `cfgA` from `stateA1`. -/
noncomputable def stateA2 : LState 1 :=
  ⟨stateA1.precision_matrix, update_feature_covariance_matrix cfgA stateA1, false⟩

/-- The state after a second subsequent inference call of `cfgA` from
`stateA2`. -/
noncomputable def stateA3 : LState 1 :=
  ⟨stateA2.precision_matrix, update_feature_covariance_matrix cfgA stateA2, false⟩

/-- The state after a training call of `cfgB` from `stateFresh` on a zero
feature batch. -/
noncomputable def stateB1 : LState 1 :=
  ⟨precisionUpdateBody cfgB stateFresh.precision_matrix (0 : Matrix (Fin 1) (Fin 1) ℝ)
      (logitsColumn (none : Option (Matrix (Fin 1) (Fin 1) ℝ))),
   stateFresh.covariance_matrix, true⟩

/-- A concrete state with the update-pending flag set. -/
noncomputable def statePending : LState 1 := ⟨0, 0, true⟩

/-- The state after an inference call of `cfgC` from `statePending`. -/
noncomputable def statePendingAfter : LState 1 :=
  ⟨statePending.precision_matrix, update_feature_covariance_matrix cfgC statePending, false⟩

/-- A concrete start state over a 3-dimensional feature space. -/
noncomputable def stateD : LState 3 := ⟨0, 0, false⟩

/-- The state after a training call of `cfgC` from `stateD` on a zero
feature batch of 2 examples. -/
noncomputable def stateD1 : LState 3 :=
  ⟨precisionUpdateBody cfgC stateD.precision_matrix (0 : Matrix (Fin 2) (Fin 3) ℝ)
      (logitsColumn (none : Option (Matrix (Fin 2) (Fin 1) ℝ))),
   stateD.covariance_matrix, true⟩

/-- The state after an inference call of `cfgC` from `stateD` on a zero
feature batch of 2 examples. -/
noncomputable def stateD2 : LState 3 :=
  ⟨stateD.precision_matrix, update_feature_covariance_matrix cfgC stateD, false⟩

end LaplaceRandomFeatureCovariance

/-! ## Theorems -/

theorem l2norm_nonneg {n : ℕ} (x : Vec n) : 0 ≤ l2norm x := Real.sqrt_nonneg _

theorem l2norm_pos {n : ℕ} {x : Vec n} (hx : x ≠ 0) : 0 < l2norm x := by
  have h1 : 0 < ∑ i, x i ^ 2 := by
    obtain ⟨i, hi⟩ : ∃ i, x i ≠ 0 := by
      by_contra h
      push_neg at h
      exact hx (funext h)
    exact Finset.sum_pos' (fun j _ => sq_nonneg (x j))
      ⟨i, Finset.mem_univ i, by positivity⟩
  exact Real.sqrt_pos.mpr h1

theorem l2norm_smul {n : ℕ} (a : ℝ) (x : Vec n) : l2norm (a • x) = |a| * l2norm x := by
  unfold l2norm
  have h : ∑ i, (a • x) i ^ 2 = a ^ 2 * ∑ i, x i ^ 2 := by
    rw [Finset.mul_sum]
    refine Finset.sum_congr rfl fun i _ => ?_
    simp [mul_pow]
  rw [h, Real.sqrt_mul (sq_nonneg a), Real.sqrt_sq_eq_abs]

theorem l2norm_l2_normalize {n : ℕ} {x : Vec n} (hx : x ≠ 0) :
    l2norm (l2_normalize x) = 1 := by
  have hpos := l2norm_pos hx
  unfold l2_normalize
  rw [l2norm_smul, abs_of_nonneg (inv_nonneg.mpr hpos.le), inv_mul_cancel₀ hpos.ne']

theorem l2norm_zero {n : ℕ} : l2norm (0 : Vec n) = 0 := by
  simp [l2norm]

theorem l2_normalize_zero {n : ℕ} : l2_normalize (0 : Vec n) = 0 := by
  simp [l2_normalize]

theorem parseLikelihood_eq_none_iff (s : String) :
    LaplaceRandomFeatureCovariance.parseLikelihood s = none ↔
      s ∉ _SUPPORTED_LIKELIHOOD := by
  unfold LaplaceRandomFeatureCovariance.parseLikelihood _SUPPORTED_LIKELIHOOD
  split_ifs with h1 h2 h3 <;> simp_all

namespace SpectralNormalizationConv2D

theorem l2_normalize_oneFun : l2_normalize (fun _ : Fin 1 => (1 : ℝ)) = fun _ => 1 := by
  unfold l2_normalize l2norm
  rw [show (∑ i : Fin 1, (fun _ : Fin 1 => (1 : ℝ)) i ^ 2) = 1 by simp [Fin.sum_univ_one]]
  simp

theorem oneMat_mulVec_oneFun :
    Matrix.mulVec (fun _ _ => 1 : Matrix (Fin 1) (Fin 1) ℝ) (fun _ => 1) = fun _ => 1 := by
  funext j
  simp [Matrix.mulVec, Matrix.dotProduct, Fin.sum_univ_one]

theorem oneMatT_mulVec_oneFun :
    Matrix.mulVec (fun _ _ => 1 : Matrix (Fin 1) (Fin 1) ℝ)ᵀ (fun _ => 1) = fun _ => 1 := by
  funext j
  simp [Matrix.mulVec, Matrix.dotProduct, Fin.sum_univ_one, Matrix.transpose]

theorem powerStep_oneMat :
    powerStep (fun _ _ => 1 : Matrix (Fin 1) (Fin 1) ℝ) (fun _ => 1, fun _ => 1)
      = (fun _ => 1, fun _ => 1) := by
  rw [show powerStep (fun _ _ => 1 : Matrix (Fin 1) (Fin 1) ℝ) (fun _ => 1, fun _ => 1)
      = (l2_normalize (Matrix.mulVec (fun _ _ => 1 : Matrix (Fin 1) (Fin 1) ℝ)
            (l2_normalize (Matrix.mulVec (fun _ _ => 1 : Matrix (Fin 1) (Fin 1) ℝ)ᵀ
              (fun _ => 1)))),
         l2_normalize (Matrix.mulVec (fun _ _ => 1 : Matrix (Fin 1) (Fin 1) ℝ)ᵀ
            (fun _ => 1))) from rfl]
  rw [oneMatT_mulVec_oneFun, l2_normalize_oneFun, oneMat_mulVec_oneFun, l2_normalize_oneFun]

theorem sigmaEstimate_oneMat :
    sigmaEstimate (fun _ _ => 1 : Matrix (Fin 1) (Fin 1) ℝ) (fun _ => 1, fun _ => 1) = 1 := by
  simp [sigmaEstimate, Matrix.mulVec, Matrix.dotProduct, Fin.sum_univ_one]

/-- Claim C1 (code bug): after a forward call in which the rescale branch
fires, the persisted kernel is the rescaled value, not the pre-call
original.  `build` sets `self.w = self.layer.kernel` (line 89), a Python
alias of the same variable, so `restore_weights`'s
`self.layer.kernel.assign(self.w)` (line 187) re-assigns the kernel
variable's own current — already rescaled — value: contrary to its
docstring, nothing is restored.  Concretely, with kernel operator `(1)`,
`u = v = (1)` and `norm_multiplier = 1/2`, the power iteration yields
`sigma = 1`, the branch fires, and the post-call kernel is `(1/2) • (1)`,
different from the pre-call kernel `(1)`. -/
theorem C1_kernel_not_restored :
    ((call (1 / 2) 1 true
        ⟨(fun _ _ => 1 : Matrix (Fin 1) (Fin 1) ℝ), fun _ => 1, fun _ => 1⟩
        (fun _ => 1)).1).kernel
      = ((1 / 2 : ℝ) / 1) • (fun _ _ => 1 : Matrix (Fin 1) (Fin 1) ℝ) ∧
    ((call (1 / 2) 1 true
        ⟨(fun _ _ => 1 : Matrix (Fin 1) (Fin 1) ℝ), fun _ => 1, fun _ => 1⟩
        (fun _ => 1)).1).kernel
      ≠ (⟨(fun _ _ => 1 : Matrix (Fin 1) (Fin 1) ℝ), fun _ => 1, fun _ => 1⟩ :
          SNState 1 1).kernel := by
  have huv : uvAfterIteration (fun _ _ => 1 : Matrix (Fin 1) (Fin 1) ℝ) 1 true
      (fun _ => 1) (fun _ => 1) = (fun _ => 1, fun _ => 1) := by
    simp [uvAfterIteration, Function.iterate_one, powerStep_oneMat]
  have hk : ((call (1 / 2) 1 true
      ⟨(fun _ _ => 1 : Matrix (Fin 1) (Fin 1) ℝ), fun _ => 1, fun _ => 1⟩
      (fun _ => 1)).1).kernel
      = (update_weights (fun _ _ => 1 : Matrix (Fin 1) (Fin 1) ℝ) (1 / 2) 1 true
          (fun _ => 1) (fun _ => 1)).2.2 := rfl
  have h22 : (update_weights (fun _ _ => 1 : Matrix (Fin 1) (Fin 1) ℝ) (1 / 2) 1 true
      (fun _ => 1) (fun _ => 1)).2.2
      = ((1 / 2 : ℝ) / 1) • (fun _ _ => 1 : Matrix (Fin 1) (Fin 1) ℝ) := by
    show (if (1 / 2 : ℝ) / sigmaEstimate _ (uvAfterIteration _ 1 true _ _) < 1 then _ else _) = _
    rw [huv, sigmaEstimate_oneMat, if_pos (by norm_num)]
  constructor
  · rw [hk, h22]
  · rw [hk, h22]
    intro h
    have h0 := congrFun (congrFun h 0) 0
    simp only [Matrix.smul_apply, smul_eq_mul] at h0
    norm_num at h0

/-- Claim C9 (amended): constructing the wrapper around a layer that is not
a `Conv2D` instance fails with a fatal error, but the rejected layer
object is NOT left unmodified: its `_name` already had `'_spec_norm'`
appended (line 75) before the `isinstance` check fired (lines 77–80). -/
theorem C9_rejects_but_mutates (layer : PyLayer) (it : ℕ) (nm : ℝ) (tr lm : Bool)
    (h : layer.isConv2D = false) :
    isError (init layer it nm tr lm).2 = true ∧
    (init layer it nm tr lm).1.name = layer.name ++ "_spec_norm" ∧
    (init layer it nm tr lm).1.isConv2D = layer.isConv2D := by
  unfold init
  simp [h, isError]

/-- Claim C9, counterexample to the original statement: the rejected
non-`Conv2D` layer named `"dense"` comes out of the failed construction
renamed to `"dense_spec_norm"` — it is not left unmodified. -/
theorem C9_counterexample :
    (init ⟨"dense", false⟩ 1 1 true false).1.name = "dense" ++ "_spec_norm" ∧
    "dense" ++ "_spec_norm" ≠ "dense" ∧
    isError (init ⟨"dense", false⟩ 1 1 true false).2 = true := by
  refine ⟨rfl, by decide, rfl⟩

/-- Claim C9, witness for the amended theorem at a concrete non-`Conv2D`
layer. -/
theorem C9_witness :
    isError (init ⟨"d", false⟩ 2 1 true false).2 = true ∧
    (init ⟨"d", false⟩ 2 1 true false).1.name
      = (PyLayer.mk "d" false).name ++ "_spec_norm" ∧
    (init ⟨"d", false⟩ 2 1 true false).1.isConv2D = (PyLayer.mk "d" false).isConv2D :=
  C9_rejects_but_mutates ⟨"d", false⟩ 2 1 true false rfl

/-- Claim C4 (amended): in every forward call, the kernel assigned for the
wrapped convolution is the original kernel `A` exactly when
`norm_multiplier / sigma ≥ 1`, and `(norm_multiplier / sigma) • A`
otherwise; in particular, whenever the estimate `sigma` is positive and
within budget (`0 < sigma ≤ norm_multiplier`) the assigned kernel is the
original kernel exactly.  (The un-amended claim drops the positivity
condition; see `C4_counterexample`.) -/
theorem C4_rescaling_policy {nO nI : ℕ} (A : Matrix (Fin nO) (Fin nI) ℝ)
    (c : ℝ) (k : ℕ) (est : Bool) (u : Vec nO) (v : Vec nI) :
    (1 ≤ c / (update_weights A c k est u v).2.1 →
      (update_weights A c k est u v).2.2 = A) ∧
    (c / (update_weights A c k est u v).2.1 < 1 →
      (update_weights A c k est u v).2.2
        = (c / (update_weights A c k est u v).2.1) • A) ∧
    (0 < (update_weights A c k est u v).2.1 →
      (update_weights A c k est u v).2.1 ≤ c →
      (update_weights A c k est u v).2.2 = A) := by
  have h21 : (update_weights A c k est u v).2.1
      = sigmaEstimate A (uvAfterIteration A k est u v) := rfl
  have h22 : (update_weights A c k est u v).2.2
      = if c / sigmaEstimate A (uvAfterIteration A k est u v) < 1 then
          (c / sigmaEstimate A (uvAfterIteration A k est u v)) • A
        else A := rfl
  rw [h21, h22]
  refine ⟨fun h => if_neg (not_lt.mpr h), fun h => if_pos h, fun hpos hle => ?_⟩
  exact if_neg (not_lt.mpr ((one_le_div hpos).mpr hle))

/-- Claim C4, counterexample to the original statement: with the stored
singular-vector estimates giving a negative `sigma` (reachable since `u`,
`v` are randomly initialised and used unchanged when
`do_power_iteration = false`), we get `sigma ≤ norm_multiplier` and yet the
assigned kernel differs from the original kernel: the ratio
`norm_multiplier / sigma` is negative, so the `tf.cond` branch fires. -/
theorem C4_counterexample :
    (update_weights (fun _ _ => 1 : Matrix (Fin 1) (Fin 1) ℝ) (95 / 100) 0 false
        (fun _ => -1) (fun _ => 1)).2.1 ≤ 95 / 100 ∧
    (update_weights (fun _ _ => 1 : Matrix (Fin 1) (Fin 1) ℝ) (95 / 100) 0 false
        (fun _ => -1) (fun _ => 1)).2.2
      ≠ (fun _ _ => 1 : Matrix (Fin 1) (Fin 1) ℝ) := by
  have hσ : (update_weights (fun _ _ => 1 : Matrix (Fin 1) (Fin 1) ℝ) (95 / 100) 0 false
      (fun _ => -1) (fun _ => 1)).2.1 = -1 := by
    show sigmaEstimate _ (uvAfterIteration _ 0 false _ _) = -1
    simp [sigmaEstimate, uvAfterIteration, Matrix.mulVec, Matrix.dotProduct,
      Fin.sum_univ_one]
  constructor
  · rw [hσ]; norm_num
  · have h22 : (update_weights (fun _ _ => 1 : Matrix (Fin 1) (Fin 1) ℝ) (95 / 100) 0 false
        (fun _ => -1) (fun _ => 1)).2.2
        = ((95 / 100 : ℝ) / (-1)) • (fun _ _ => 1 : Matrix (Fin 1) (Fin 1) ℝ) := by
      show (if (95 / 100 : ℝ) / sigmaEstimate _ (uvAfterIteration _ 0 false _ _) < 1 then _ else _) = _
      rw [show sigmaEstimate (fun _ _ => 1 : Matrix (Fin 1) (Fin 1) ℝ)
          (uvAfterIteration (fun _ _ => 1 : Matrix (Fin 1) (Fin 1) ℝ) 0 false
            (fun _ => -1) (fun _ => 1)) = -1 from hσ]
      rw [if_pos (by norm_num)]
    rw [h22]
    intro h
    have h0 := congrFun (congrFun h 0) 0
    simp only [Matrix.smul_apply, smul_eq_mul] at h0
    norm_num at h0

/-- Claim C4, witness for the amended theorem at a concrete input where
`sigma = 1` is positive and within the budget `norm_multiplier = 2`. -/
theorem C4_witness :
    0 < (update_weights (fun _ _ => 1 : Matrix (Fin 1) (Fin 1) ℝ) 2 0 false
        (fun _ => 1) (fun _ => 1)).2.1 ∧
    (update_weights (fun _ _ => 1 : Matrix (Fin 1) (Fin 1) ℝ) 2 0 false
        (fun _ => 1) (fun _ => 1)).2.1 ≤ 2 ∧
    (update_weights (fun _ _ => 1 : Matrix (Fin 1) (Fin 1) ℝ) 2 0 false
        (fun _ => 1) (fun _ => 1)).2.2 = (fun _ _ => 1 : Matrix (Fin 1) (Fin 1) ℝ) := by
  have hσ : (update_weights (fun _ _ => 1 : Matrix (Fin 1) (Fin 1) ℝ) 2 0 false
      (fun _ => 1) (fun _ => 1)).2.1 = 1 := by
    show sigmaEstimate _ (uvAfterIteration _ 0 false _ _) = 1
    simp [sigmaEstimate, uvAfterIteration, Matrix.mulVec, Matrix.dotProduct,
      Fin.sum_univ_one]
  refine ⟨by rw [hσ]; norm_num, by rw [hσ]; norm_num, ?_⟩
  exact (C4_rescaling_policy (fun _ _ => 1 : Matrix (Fin 1) (Fin 1) ℝ) 2 0 false
    (fun _ => 1) (fun _ => 1)).2.2 (by rw [hσ]; norm_num) (by rw [hσ]; norm_num)

/-- Claim C5 (amended): with the estimate flag set, a forward call performs
exactly `k` iterations of `v ← normalize(conv_transpose(u, W))`;
`u ← normalize(conv(v, W))` (the returned pair is `powerStep` iterated `k`
times); for `k ≥ 1 `, provided the two tensors normalised in the final
iteration are nonzero, the resulting persisted `u` and `v` have unit L2
norm; with the flag cleared the stored `u` and `v` are used unchanged.
(The un-amended claim assumed only `W ≠ 0`, which does not prevent the
iterates from vanishing; see `C5_counterexample`.) -/
theorem C5_power_iteration_unit_norm {nO nI : ℕ} (A : Matrix (Fin nO) (Fin nI) ℝ)
    (c : ℝ) (k : ℕ) (u : Vec nO) (v : Vec nI) (hk : 1 ≤ k)
    (h1 : Matrix.mulVec Aᵀ ((powerStep A)^[k - 1] (u, v)).1 ≠ 0)
    (h2 : Matrix.mulVec A
        (l2_normalize (Matrix.mulVec Aᵀ ((powerStep A)^[k - 1] (u, v)).1)) ≠ 0) :
    (update_weights A c k true u v).1 = (powerStep A)^[k] (u, v) ∧
    l2norm ((update_weights A c k true u v).1.1) = 1 ∧
    l2norm ((update_weights A c k true u v).1.2) = 1 ∧
    (update_weights A c k false u v).1 = (u, v) := by
  have e1 : (update_weights A c k true u v).1 = (powerStep A)^[k] (u, v) := by
    show uvAfterIteration A k true u v = _
    simp [uvAfterIteration]
  have e4 : (update_weights A c k false u v).1 = (u, v) := by
    show uvAfterIteration A k false u v = _
    simp [uvAfterIteration]
  obtain ⟨j, rfl⟩ : ∃ j, k = j + 1 := ⟨k - 1, (Nat.succ_pred_eq_of_pos hk).symm⟩
  rw [Nat.add_sub_cancel] at h1 h2
  have hit : (powerStep A)^[j + 1] (u, v)
      = powerStep A ((powerStep A)^[j] (u, v)) := Function.iterate_succ_apply' _ _ _
  have hstep : powerStep A ((powerStep A)^[j] (u, v))
      = (l2_normalize (Matrix.mulVec A
            (l2_normalize (Matrix.mulVec Aᵀ ((powerStep A)^[j] (u, v)).1))),
         l2_normalize (Matrix.mulVec Aᵀ ((powerStep A)^[j] (u, v)).1)) := rfl
  refine ⟨e1, ?_, ?_, e4⟩
  · rw [e1, hit, hstep]
    exact l2norm_l2_normalize h2
  · rw [e1, hit, hstep]
    exact l2norm_l2_normalize h1

/-- Claim C5, counterexample to the original statement: the nonzero weight
tensor corresponding to the operator with matrix `(1; 1)` (a `1 × 1`
convolution kernel with one input and two output channels) annihilates the
stored `u = (1, -1)` under `conv2d_transpose`, so after one power
iteration both persisted vectors are zero — their L2 norm is `0`, not `1`,
even though `W ≠ 0` and `k = 1`. -/
theorem C5_counterexample :
    (fun _ _ => 1 : Matrix (Fin 2) (Fin 1) ℝ) ≠ 0 ∧
    l2norm ((update_weights (fun _ _ => 1 : Matrix (Fin 2) (Fin 1) ℝ) 1 1 true
        ![1, -1] ![0]).1.1) ≠ 1 ∧
    l2norm ((update_weights (fun _ _ => 1 : Matrix (Fin 2) (Fin 1) ℝ) 1 1 true
        ![1, -1] ![0]).1.2) ≠ 1 := by
  have hA : (fun _ _ => 1 : Matrix (Fin 2) (Fin 1) ℝ) ≠ 0 := by
    intro h
    have h0 := congrFun (congrFun h 0) 0
    norm_num at h0
  have hv : Matrix.mulVec (fun _ _ => 1 : Matrix (Fin 2) (Fin 1) ℝ)ᵀ ![1, -1] = 0 := by
    funext j
    simp [Matrix.mulVec, Matrix.dotProduct, Fin.sum_univ_two, Matrix.transpose]
  have hiter : (update_weights (fun _ _ => 1 : Matrix (Fin 2) (Fin 1) ℝ) 1 1 true
      ![1, -1] ![0]).1 = (0, 0) := by
    show uvAfterIteration _ 1 true _ _ = _
    simp only [uvAfterIteration, if_pos, Function.iterate_one]
    show powerStep _ (![1, -1], ![0]) = _
    rw [show powerStep (fun _ _ => 1 : Matrix (Fin 2) (Fin 1) ℝ) (![1, -1], ![0])
        = (l2_normalize (Matrix.mulVec (fun _ _ => 1 : Matrix (Fin 2) (Fin 1) ℝ)
              (l2_normalize (Matrix.mulVec (fun _ _ => 1 : Matrix (Fin 2) (Fin 1) ℝ)ᵀ ![1, -1]))),
           l2_normalize (Matrix.mulVec (fun _ _ => 1 : Matrix (Fin 2) (Fin 1) ℝ)ᵀ ![1, -1])) from rfl]
    rw [hv, l2_normalize_zero, Matrix.mulVec_zero, l2_normalize_zero]
  refine ⟨hA, ?_, ?_⟩
  · rw [show ((update_weights (fun _ _ => 1 : Matrix (Fin 2) (Fin 1) ℝ) 1 1 true
        ![1, -1] ![0]).1.1) = 0 from congrArg Prod.fst hiter, l2norm_zero]
    norm_num
  · rw [show ((update_weights (fun _ _ => 1 : Matrix (Fin 2) (Fin 1) ℝ) 1 1 true
        ![1, -1] ![0]).1.2) = 0 from congrArg Prod.snd hiter, l2norm_zero]
    norm_num

/-- Claim C5, witness for the amended theorem at the concrete operator
`A = (1)` with `u = v = (1)` and `k = 1`, where no iterate vanishes. -/
theorem C5_witness :
    (update_weights (fun _ _ => 1 : Matrix (Fin 1) (Fin 1) ℝ) 1 1 true
        (fun _ => 1) (fun _ => 1)).1
      = (powerStep (fun _ _ => 1 : Matrix (Fin 1) (Fin 1) ℝ))^[1]
          (fun _ => 1, fun _ => 1) ∧
    l2norm ((update_weights (fun _ _ => 1 : Matrix (Fin 1) (Fin 1) ℝ) 1 1 true
        (fun _ => 1) (fun _ => 1)).1.1) = 1 ∧
    l2norm ((update_weights (fun _ _ => 1 : Matrix (Fin 1) (Fin 1) ℝ) 1 1 true
        (fun _ => 1) (fun _ => 1)).1.2) = 1 ∧
    (update_weights (fun _ _ => 1 : Matrix (Fin 1) (Fin 1) ℝ) 1 1 false
        (fun _ => 1) (fun _ => 1)).1 = (fun _ => 1, fun _ => 1) := by
  have hone : Matrix.mulVec (fun _ _ => 1 : Matrix (Fin 1) (Fin 1) ℝ)ᵀ
      ((powerStep (fun _ _ => 1 : Matrix (Fin 1) (Fin 1) ℝ))^[1 - 1]
        (fun _ => 1, fun _ => 1)).1 = fun _ => 1 := by
    funext j
    show Matrix.mulVec (fun _ _ => 1 : Matrix (Fin 1) (Fin 1) ℝ)ᵀ (fun _ => 1) j = 1
    simp [Matrix.mulVec, Matrix.dotProduct, Fin.sum_univ_one, Matrix.transpose]
  have hne : (fun _ : Fin 1 => (1 : ℝ)) ≠ 0 := by
    intro h
    have h0 := congrFun h 0
    norm_num at h0
  have hnorm : l2_normalize (fun _ : Fin 1 => (1 : ℝ)) = fun _ => 1 := by
    unfold l2_normalize l2norm
    rw [show (∑ i : Fin 1, (fun _ : Fin 1 => (1 : ℝ)) i ^ 2) = 1 by
      simp [Fin.sum_univ_one]]
    simp
  have hAone : Matrix.mulVec (fun _ _ => 1 : Matrix (Fin 1) (Fin 1) ℝ)
      (fun _ => 1) = fun _ => 1 := by
    funext j
    simp [Matrix.mulVec, Matrix.dotProduct, Fin.sum_univ_one]
  exact C5_power_iteration_unit_norm (fun _ _ => 1 : Matrix (Fin 1) (Fin 1) ℝ) 1 1
    (fun _ => 1) (fun _ => 1) (le_refl 1)
    (by rw [hone]; exact hne)
    (by rw [hone, hnorm, hAone]; exact hne)

end SpectralNormalizationConv2D

namespace LaplaceRandomFeatureCovariance

theorem probMultiplier_nonneg (lik : Likelihood) (x : ℝ) :
    0 ≤ probMultiplier lik x := by
  cases lik with
  | binary_logistic =>
    have he : 0 < Real.exp (-x) := Real.exp_pos _
    have h1 : (0 : ℝ) < 1 + Real.exp (-x) := by linarith
    have hp0 : 0 < sigmoid x := div_pos one_pos h1
    have hp1 : sigmoid x < 1 := by
      unfold sigmoid
      rw [div_lt_one h1]
      linarith
    exact mul_nonneg hp0.le (by linarith)
  | poisson => exact (Real.exp_pos x).le
  | gaussian => norm_num [probMultiplier]

/-- Claim C3: in every (successful) training-mode precision update with a
feature minibatch of `b` rows whose weighted second-moment matrix is `M`,
the new precision matrix is the convex combination
`momentum • P + (1 - momentum) • (M / b)` whenever `momentum > 0`
(in particular `0.999 • P + 0.001 • (M / b)` for the default momentum
`0.999`), and the exact accumulation `P + M` whenever `momentum ≤ 0`. -/
theorem C3_precision_momentum_update {b d L : ℕ} (cfg : LCfg)
    (P : Matrix (Fin d) (Fin d) ℝ) (Φ : Matrix (Fin b) (Fin d) ℝ)
    (logits : Option (Matrix (Fin b) (Fin L) ℝ))
    (Pnew M : Matrix (Fin d) (Fin d) ℝ)
    (hM : M = (gpFeatureAdjusted cfg.likelihood Φ (logitsColumn logits))ᵀ
        * gpFeatureAdjusted cfg.likelihood Φ (logitsColumn logits))
    (h : update_feature_precision_matrix cfg P Φ logits = Except.ok Pnew) :
    (0 < cfg.momentum →
      Pnew = cfg.momentum • P + (1 - cfg.momentum) • (((b : ℝ))⁻¹ • M)) ∧
    (cfg.momentum ≤ 0 → Pnew = P + M) ∧
    (cfg.momentum = 0.999 →
      Pnew = (0.999 : ℝ) • P + (0.001 : ℝ) • (((b : ℝ))⁻¹ • M)) := by
  have hbody : Pnew = precisionUpdateBody cfg P Φ (logitsColumn logits) := by
    unfold update_feature_precision_matrix at h
    split_ifs at h <;> simp only [Except.ok.injEq] at h <;> exact h.symm
  have hexp : precisionUpdateBody cfg P Φ (logitsColumn logits)
      = if cfg.momentum > 0 then
          cfg.momentum • P + (1 - cfg.momentum) • (((b : ℝ))⁻¹ • M)
        else P + M := by
    rw [hM]
    rfl
  rw [hbody, hexp]
  refine ⟨fun hm => if_pos hm, fun hm => if_neg (not_lt.mpr hm), fun hm => ?_⟩
  rw [hm, if_pos (by norm_num : (0.999 : ℝ) > 0)]
  norm_num

/-- Claim C3, witness at a concrete configuration with momentum `1/2 > 0`
on a zero feature batch of one example. -/
theorem C3_witness :
    (0 : ℝ) < (1 / 2 : ℝ) ∧
    precisionUpdateBody cfgA (0 : Matrix (Fin 1) (Fin 1) ℝ)
        (0 : Matrix (Fin 1) (Fin 1) ℝ)
        (logitsColumn (none : Option (Matrix (Fin 1) (Fin 1) ℝ)))
      = (1 / 2 : ℝ) • (0 : Matrix (Fin 1) (Fin 1) ℝ)
        + (1 - (1 / 2 : ℝ)) • ((((1 : ℕ) : ℝ))⁻¹ •
            ((gpFeatureAdjusted Likelihood.gaussian (0 : Matrix (Fin 1) (Fin 1) ℝ)
                (logitsColumn (none : Option (Matrix (Fin 1) (Fin 1) ℝ))))ᵀ
              * gpFeatureAdjusted Likelihood.gaussian (0 : Matrix (Fin 1) (Fin 1) ℝ)
                (logitsColumn (none : Option (Matrix (Fin 1) (Fin 1) ℝ))))) :=
  ⟨by norm_num,
   (C3_precision_momentum_update cfgA (0 : Matrix (Fin 1) (Fin 1) ℝ)
      (0 : Matrix (Fin 1) (Fin 1) ℝ) (none : Option (Matrix (Fin 1) (Fin 1) ℝ))
      _ _ rfl rfl).1 (by norm_num [cfgA])⟩

/-- Claim C7: in a training-mode precision update the per-example weight
applied to feature rows is `1` for the `gaussian` likelihood,
`sigmoid(logit) * (1 - sigmoid(logit))` for `binary_logistic`, and
`exp(logit)` for `poisson`; the adjusted feature matrix scales row `i` of
`Φ` by the square root of that weight, and the minibatch second-moment
matrix `(√weight·Φ)ᵀ (√weight·Φ)` has entries
`∑ i, weight i * (Φ i j * Φ i k)`. -/
theorem C7_per_example_weights {b d : ℕ} (lik : Likelihood)
    (Φ : Matrix (Fin b) (Fin d) ℝ) (logit : Fin b → ℝ) (x : ℝ) :
    probMultiplier Likelihood.gaussian x = 1 ∧
    probMultiplier Likelihood.binary_logistic x = sigmoid x * (1 - sigmoid x) ∧
    probMultiplier Likelihood.poisson x = Real.exp x ∧
    (∀ i j, gpFeatureAdjusted lik Φ logit i j
        = Real.sqrt (probMultiplier lik (logit i)) * Φ i j) ∧
    (∀ j k, ((gpFeatureAdjusted lik Φ logit)ᵀ * gpFeatureAdjusted lik Φ logit) j k
        = ∑ i, probMultiplier lik (logit i) * (Φ i j * Φ i k)) := by
  refine ⟨rfl, rfl, rfl, fun i j => rfl, fun j k => ?_⟩
  rw [Matrix.mul_apply]
  refine Finset.sum_congr rfl fun i _ => ?_
  show (Real.sqrt (probMultiplier lik (logit i)) * Φ i j)
      * (Real.sqrt (probMultiplier lik (logit i)) * Φ i k) = _
  rw [show (Real.sqrt (probMultiplier lik (logit i)) * Φ i j)
      * (Real.sqrt (probMultiplier lik (logit i)) * Φ i k)
      = (Real.sqrt (probMultiplier lik (logit i))
          * Real.sqrt (probMultiplier lik (logit i))) * (Φ i j * Φ i k) by ring]
  rw [Real.mul_self_sqrt (probMultiplier_nonneg lik (logit i))]

/-- Claim C8: construction with a likelihood identifier outside
`_SUPPORTED_LIKELIHOOD` raises; a precision update under a non-Gaussian
likelihood raises when `logits` is `None`, and raises when the logits'
last dimension is not 1. -/
theorem C8_validation_errors :
    (∀ (m r : ℝ) (lik : String), lik ∉ _SUPPORTED_LIKELIHOOD →
      isError (init m r lik) = true) ∧
    (∀ (b d L : ℕ) (cfg : LCfg) (P : Matrix (Fin d) (Fin d) ℝ)
        (Φ : Matrix (Fin b) (Fin d) ℝ),
      cfg.likelihood ≠ Likelihood.gaussian →
      isError (update_feature_precision_matrix cfg P Φ
        (none : Option (Matrix (Fin b) (Fin L) ℝ))) = true) ∧
    (∀ (b d L : ℕ) (cfg : LCfg) (P : Matrix (Fin d) (Fin d) ℝ)
        (Φ : Matrix (Fin b) (Fin d) ℝ) (l : Matrix (Fin b) (Fin L) ℝ),
      cfg.likelihood ≠ Likelihood.gaussian → L ≠ 1 →
      isError (update_feature_precision_matrix cfg P Φ (some l)) = true) := by
  refine ⟨fun m r lik h => ?_, fun b d L cfg P Φ h => ?_, fun b d L cfg P Φ l h hL => ?_⟩
  · have hp : parseLikelihood lik = none := (parseLikelihood_eq_none_iff lik).mpr h
    simp [init, hp, isError]
  · simp [update_feature_precision_matrix, h, isError, Option.isNone]
  · simp [update_feature_precision_matrix, h, hL, isError, Option.isNone]

/-- Claim C8, witness at the unsupported identifier `"laplace"` and at a
Poisson-likelihood update with missing logits and with 2-dimensional
logits respectively. -/
theorem C8_witness :
    isError (init 1 1 "laplace") = true ∧
    isError (update_feature_precision_matrix ⟨1, 1, Likelihood.poisson⟩
      (0 : Matrix (Fin 1) (Fin 1) ℝ) (0 : Matrix (Fin 1) (Fin 1) ℝ)
      (none : Option (Matrix (Fin 1) (Fin 1) ℝ))) = true ∧
    isError (update_feature_precision_matrix ⟨1, 1, Likelihood.poisson⟩
      (0 : Matrix (Fin 1) (Fin 1) ℝ) (0 : Matrix (Fin 1) (Fin 1) ℝ)
      (some (0 : Matrix (Fin 1) (Fin 2) ℝ))) = true :=
  ⟨C8_validation_errors.1 1 1 "laplace" (by decide),
   C8_validation_errors.2.1 1 1 1 ⟨1, 1, Likelihood.poisson⟩ 0 0 (by decide),
   C8_validation_errors.2.2 1 1 2 ⟨1, 1, Likelihood.poisson⟩ 0 0 0 (by decide) (by decide)⟩

/-- Claim C2 (amended): a training-mode call sets the update-pending flag;
an inference-mode call executes the `tf.linalg.inv` branch exactly when
the flag was set and then clears it; hence a training call followed by two
inference calls performs exactly one inversion (`i₂ = true`, `i₃ = false`)
and the second inference call reuses the cached covariance.  Moreover the
covariance of both post-inference states is fresh: it equals the inverse
of the ridge-regularised current precision matrix.  (The un-amended
"stale iff flag set" invariant fails in one direction: the flag can be set
while the covariance still happens to be fresh; see
`C2_counterexample`.) -/
theorem C2_dirty_flag_discipline {d b₁ b₂ b₃ L : ℕ} (cfg : LCfg)
    (s s₁ s₂ s₃ : LState d)
    (Φ₁ : Matrix (Fin b₁) (Fin d) ℝ) (logits : Option (Matrix (Fin b₁) (Fin L) ℝ))
    (Φ₂ : Matrix (Fin b₂) (Fin d) ℝ) (Φ₃ : Matrix (Fin b₃) (Fin d) ℝ)
    (M₁ : Matrix (Fin b₁) (Fin b₁) ℝ) (M₂ : Matrix (Fin b₂) (Fin b₂) ℝ)
    (M₃ : Matrix (Fin b₃) (Fin b₃) ℝ) (i₁ i₂ i₃ : Bool)
    (h₁ : call cfg s Φ₁ logits true = Except.ok (s₁, M₁, i₁))
    (h₂ : call cfg s₁ Φ₂ (none : Option (Matrix (Fin b₂) (Fin L) ℝ)) false
        = Except.ok (s₂, M₂, i₂))
    (h₃ : call cfg s₂ Φ₃ (none : Option (Matrix (Fin b₃) (Fin L) ℝ)) false
        = Except.ok (s₃, M₃, i₃)) :
    s₁.if_update_covariance = true ∧ i₁ = false ∧ M₁ = 1 ∧
    i₂ = true ∧ s₂.if_update_covariance = false ∧
    s₂.precision_matrix = s₁.precision_matrix ∧
    s₂.covariance_matrix
      = (cfg.ridge_penalty • (1 : Matrix (Fin d) (Fin d) ℝ)
          + s₁.precision_matrix)⁻¹ ∧
    i₃ = false ∧ s₃.covariance_matrix = s₂.covariance_matrix ∧
    s₃.covariance_matrix
      = (cfg.ridge_penalty • (1 : Matrix (Fin d) (Fin d) ℝ)
          + s₃.precision_matrix)⁻¹ := by
  rw [show call cfg s Φ₁ logits true
      = (update_feature_precision_matrix cfg s.precision_matrix Φ₁ logits).map
          (fun P' => (⟨P', s.covariance_matrix, true⟩,
            (1 : Matrix (Fin b₁) (Fin b₁) ℝ), false)) from rfl] at h₁
  cases hu : update_feature_precision_matrix cfg s.precision_matrix Φ₁ logits with
  | error e =>
    rw [hu] at h₁
    exact absurd h₁ (by simp [Except.map])
  | ok P' =>
    rw [hu] at h₁
    simp only [Except.map, Except.ok.injEq, Prod.mk.injEq] at h₁
    obtain ⟨hs₁, hM₁, hi₁⟩ := h₁
    subst hs₁
    rw [show call cfg (⟨P', s.covariance_matrix, true⟩ : LState d) Φ₂
        (none : Option (Matrix (Fin b₂) (Fin L) ℝ)) false
        = Except.ok
            (⟨P', update_feature_covariance_matrix cfg ⟨P', s.covariance_matrix, true⟩, false⟩,
             compute_predictive_covariance cfg
               ⟨P', update_feature_covariance_matrix cfg ⟨P', s.covariance_matrix, true⟩, false⟩ Φ₂,
             true) from rfl] at h₂
    simp only [Except.ok.injEq, Prod.mk.injEq] at h₂
    obtain ⟨hs₂, hM₂, hi₂⟩ := h₂
    have hcov : update_feature_covariance_matrix cfg
        (⟨P', s.covariance_matrix, true⟩ : LState d)
        = (cfg.ridge_penalty • (1 : Matrix (Fin d) (Fin d) ℝ) + P')⁻¹ := by
      simp [update_feature_covariance_matrix]
    subst hs₂
    rw [show call cfg
        (⟨P', update_feature_covariance_matrix cfg ⟨P', s.covariance_matrix, true⟩, false⟩ : LState d)
        Φ₃ (none : Option (Matrix (Fin b₃) (Fin L) ℝ)) false
        = Except.ok
            (⟨P', update_feature_covariance_matrix cfg
               ⟨P', update_feature_covariance_matrix cfg ⟨P', s.covariance_matrix, true⟩, false⟩,
              false⟩,
             compute_predictive_covariance cfg
               ⟨P', update_feature_covariance_matrix cfg
                 ⟨P', update_feature_covariance_matrix cfg ⟨P', s.covariance_matrix, true⟩, false⟩,
                false⟩ Φ₃,
             false) from rfl] at h₃
    simp only [Except.ok.injEq, Prod.mk.injEq] at h₃
    obtain ⟨hs₃, hM₃, hi₃⟩ := h₃
    have hcov₂ : update_feature_covariance_matrix cfg
        (⟨P', update_feature_covariance_matrix cfg ⟨P', s.covariance_matrix, true⟩, false⟩ : LState d)
        = update_feature_covariance_matrix cfg (⟨P', s.covariance_matrix, true⟩ : LState d) := by
      simp [update_feature_covariance_matrix]
    subst hs₃
    refine ⟨rfl, hi₁.symm, hM₁.symm, hi₂.symm, rfl, rfl, ?_, hi₃.symm, ?_, ?_⟩
    · exact hcov
    · exact hcov₂
    · rw [hcov₂, hcov]

/-- Claim C2, witness: the concrete trace — one training call of `cfgA`
from `stateFresh` on a one-example zero batch, followed by two inference
calls — exhibits the dirty-flag discipline with exactly one inversion. -/
theorem C2_witness :
    stateA1.if_update_covariance = true ∧ (false : Bool) = false ∧
    (1 : Matrix (Fin 1) (Fin 1) ℝ) = 1 ∧
    (true : Bool) = true ∧ stateA2.if_update_covariance = false ∧
    stateA2.precision_matrix = stateA1.precision_matrix ∧
    stateA2.covariance_matrix
      = (cfgA.ridge_penalty • (1 : Matrix (Fin 1) (Fin 1) ℝ)
          + stateA1.precision_matrix)⁻¹ ∧
    (false : Bool) = false ∧ stateA3.covariance_matrix = stateA2.covariance_matrix ∧
    stateA3.covariance_matrix
      = (cfgA.ridge_penalty • (1 : Matrix (Fin 1) (Fin 1) ℝ)
          + stateA3.precision_matrix)⁻¹ :=
  C2_dirty_flag_discipline cfgA stateFresh stateA1 stateA2 stateA3
    (0 : Matrix (Fin 1) (Fin 1) ℝ) (none : Option (Matrix (Fin 1) (Fin 1) ℝ))
    (0 : Matrix (Fin 1) (Fin 1) ℝ) (0 : Matrix (Fin 1) (Fin 1) ℝ)
    1 (compute_predictive_covariance cfgA stateA2 0)
    (compute_predictive_covariance cfgA stateA3 0)
    false true false rfl rfl rfl

/-- Claim C2, counterexample to the un-amended "`C` is stale iff the flag
is true" invariant: from the reachable state `stateFresh` (zero precision,
covariance `1 = (ridge • I + 0)⁻¹`, flag cleared), a training call on a
zero feature batch leaves the precision matrix unchanged, so the flag
comes out set while the cached covariance still equals the inverse of the
ridge-regularised current precision matrix — the flag is true, but `C` is
not stale. -/
theorem C2_counterexample :
    call cfgB stateFresh (0 : Matrix (Fin 1) (Fin 1) ℝ)
        (none : Option (Matrix (Fin 1) (Fin 1) ℝ)) true
      = Except.ok (stateB1, 1, false) ∧
    stateB1.if_update_covariance = true ∧
    stateB1.covariance_matrix
      = (cfgB.ridge_penalty • (1 : Matrix (Fin 1) (Fin 1) ℝ)
          + stateB1.precision_matrix)⁻¹ := by
  have hadj : gpFeatureAdjusted cfgB.likelihood (0 : Matrix (Fin 1) (Fin 1) ℝ)
      (logitsColumn (none : Option (Matrix (Fin 1) (Fin 1) ℝ))) = 0 := by
    funext i j
    simp [gpFeatureAdjusted]
  have hP : stateB1.precision_matrix = 0 := by
    show precisionUpdateBody cfgB stateFresh.precision_matrix (0 : Matrix (Fin 1) (Fin 1) ℝ)
        (logitsColumn (none : Option (Matrix (Fin 1) (Fin 1) ℝ))) = 0
    unfold precisionUpdateBody
    rw [if_neg (by norm_num [cfgB] : ¬ (cfgB.momentum > 0))]
    rw [hadj]
    simp [stateFresh]
  refine ⟨rfl, rfl, ?_⟩
  rw [hP]
  rw [show stateB1.covariance_matrix = (1 : Matrix (Fin 1) (Fin 1) ℝ) from rfl]
  rw [show cfgB.ridge_penalty = (1 : ℝ) from rfl]
  rw [one_smul, add_zero, inv_one]

/-- Claim C6: in an inference-mode call with the update-pending flag set,
the stored covariance becomes `(ridge_penalty • I + P)⁻¹` and the returned
predictive covariance for the test feature matrix `Φ` equals
`ridge_penalty • (Φ * C * Φᵀ)`, a `(batch × batch)` matrix. -/
theorem C6_inference_covariance {d b L : ℕ} (cfg : LCfg) (s : LState d)
    (Φ : Matrix (Fin b) (Fin d) ℝ) (logits : Option (Matrix (Fin b) (Fin L) ℝ))
    (s' : LState d) (M : Matrix (Fin b) (Fin b) ℝ) (i : Bool)
    (hflag : s.if_update_covariance = true)
    (h : call cfg s Φ logits false = Except.ok (s', M, i)) :
    s'.covariance_matrix
      = (cfg.ridge_penalty • (1 : Matrix (Fin d) (Fin d) ℝ) + s.precision_matrix)⁻¹ ∧
    M = cfg.ridge_penalty • (Φ * s'.covariance_matrix * Φᵀ) ∧
    matrixShape M = [b, b] := by
  rw [show call cfg s Φ logits false
      = Except.ok
          (⟨s.precision_matrix, update_feature_covariance_matrix cfg s, false⟩,
           compute_predictive_covariance cfg
             ⟨s.precision_matrix, update_feature_covariance_matrix cfg s, false⟩ Φ,
           s.if_update_covariance) from rfl] at h
  simp only [Except.ok.injEq, Prod.mk.injEq] at h
  obtain ⟨hs, hMeq, hi⟩ := h
  have hcov : update_feature_covariance_matrix cfg s
      = (cfg.ridge_penalty • (1 : Matrix (Fin d) (Fin d) ℝ) + s.precision_matrix)⁻¹ := by
    simp [update_feature_covariance_matrix, hflag]
  subst hs
  refine ⟨hcov, ?_, rfl⟩
  rw [← hMeq]
  show (Φ * (cfg.ridge_penalty •
      ((⟨s.precision_matrix, update_feature_covariance_matrix cfg s, false⟩ :
        LState d).covariance_matrix * Φᵀ))) = _
  rw [Matrix.mul_smul, Matrix.mul_assoc]

/-- Claim C6, witness at the concrete pending state `statePending` with
configuration `cfgC` and a zero test batch. -/
theorem C6_witness :
    statePendingAfter.covariance_matrix
      = (cfgC.ridge_penalty • (1 : Matrix (Fin 1) (Fin 1) ℝ)
          + statePending.precision_matrix)⁻¹ ∧
    compute_predictive_covariance cfgC statePendingAfter (0 : Matrix (Fin 1) (Fin 1) ℝ)
      = cfgC.ridge_penalty • ((0 : Matrix (Fin 1) (Fin 1) ℝ)
          * statePendingAfter.covariance_matrix * (0 : Matrix (Fin 1) (Fin 1) ℝ)ᵀ) ∧
    matrixShape (compute_predictive_covariance cfgC statePendingAfter
      (0 : Matrix (Fin 1) (Fin 1) ℝ)) = [1, 1] :=
  C6_inference_covariance cfgC statePending (0 : Matrix (Fin 1) (Fin 1) ℝ)
    (none : Option (Matrix (Fin 1) (Fin 1) ℝ)) statePendingAfter
    (compute_predictive_covariance cfgC statePendingAfter (0 : Matrix (Fin 1) (Fin 1) ℝ))
    true rfl rfl

/-- Claim C10: for a feature batch of shape `(b, d)`, `call` returns a
`(b, b)` matrix in both modes — the identity in training mode, the
predictive covariance in inference mode — while `compute_output_shape`
declares `(d, d)`; the declared and actual output shapes disagree whenever
`b ≠ d`. -/
theorem C10_output_shape_mismatch {b d L : ℕ} (cfg : LCfg) (s : LState d)
    (Φ : Matrix (Fin b) (Fin d) ℝ) (logits : Option (Matrix (Fin b) (Fin L) ℝ))
    (s₁ : LState d) (M₁ : Matrix (Fin b) (Fin b) ℝ) (i₁ : Bool)
    (s₂ : LState d) (M₂ : Matrix (Fin b) (Fin b) ℝ) (i₂ : Bool)
    (h₁ : call cfg s Φ logits true = Except.ok (s₁, M₁, i₁))
    (h₂ : call cfg s Φ logits false = Except.ok (s₂, M₂, i₂)) :
    compute_output_shape [b, d] = [d, d] ∧
    M₁ = (1 : Matrix (Fin b) (Fin b) ℝ) ∧
    matrixShape M₁ = [b, b] ∧ matrixShape M₂ = [b, b] ∧
    (b ≠ d → compute_output_shape [b, d] ≠ matrixShape M₁) := by
  have hshape : compute_output_shape [b, d] = [d, d] := rfl
  have hM₁ : M₁ = (1 : Matrix (Fin b) (Fin b) ℝ) := by
    rw [show call cfg s Φ logits true
        = (update_feature_precision_matrix cfg s.precision_matrix Φ logits).map
            (fun P' => (⟨P', s.covariance_matrix, true⟩,
              (1 : Matrix (Fin b) (Fin b) ℝ), false)) from rfl] at h₁
    cases hu : update_feature_precision_matrix cfg s.precision_matrix Φ logits with
    | error e =>
      rw [hu] at h₁
      exact absurd h₁ (by simp [Except.map])
    | ok P' =>
      rw [hu] at h₁
      simp only [Except.map, Except.ok.injEq, Prod.mk.injEq] at h₁
      exact h₁.2.1.symm
  refine ⟨hshape, hM₁, rfl, rfl, fun hbd h => ?_⟩
  rw [hshape] at h
  have hdb : d = b := by simpa [matrixShape] using h
  exact hbd hdb.symm

/-- Claim C10, witness at a `(2, 3)`-shaped feature batch: the declared
shape `[3, 3]` differs from the actual output shape `[2, 2]`. -/
theorem C10_witness :
    compute_output_shape [2, 3] = [3, 3] ∧
    (1 : Matrix (Fin 2) (Fin 2) ℝ) = 1 ∧
    matrixShape (1 : Matrix (Fin 2) (Fin 2) ℝ) = [2, 2] ∧
    matrixShape (compute_predictive_covariance cfgC stateD2
      (0 : Matrix (Fin 2) (Fin 3) ℝ)) = [2, 2] ∧
    ((2 : ℕ) ≠ 3 → compute_output_shape [2, 3]
      ≠ matrixShape (1 : Matrix (Fin 2) (Fin 2) ℝ)) :=
  C10_output_shape_mismatch cfgC stateD (0 : Matrix (Fin 2) (Fin 3) ℝ)
    (none : Option (Matrix (Fin 2) (Fin 1) ℝ)) stateD1 1 false stateD2
    (compute_predictive_covariance cfgC stateD2 (0 : Matrix (Fin 2) (Fin 3) ℝ))
    false rfl rfl

end LaplaceRandomFeatureCovariance

end EdwardUtils
